import Mathlib

/-!
Verification development for the NextGen PDF chunking-and-classification
pipeline (`scripts/embedPDFWithMetadata.py`).

Strings are modelled as `List Char` (`PyStr`), with Python's `str.lower`,
`str.strip`, `str.rfind` and slice semantics (including negative indices)
made explicit.  `re.search` is modelled by a small Brzozowski-derivative
regular-expression engine over the exact patterns appearing in the source;
`.` matches any character except a newline, as in Python's default mode.
-/

/-- Python strings, modelled as lists of characters. -/
abbrev PyStr := List Char

/-- Python whitespace characters stripped by `str.strip()` (ASCII range). -/
def pyIsSpace (c : Char) : Bool :=
  c = ' ' || c = '\t' || c = '\n' || c = '\r' || c = '\x0b' || c = '\x0c'

/-- Model of Python `str.strip()`: drop whitespace from both ends. -/
def pyStrip (s : PyStr) : PyStr :=
  ((s.dropWhile pyIsSpace).reverse.dropWhile pyIsSpace).reverse

/-- Model of Python `str.lower()` (the source only lowercases ASCII text). -/
def pyLower (s : PyStr) : PyStr :=
  s.map Char.toLower

/-- Normalisation of one slice bound, as in Python `s[i:j]`: a negative index
counts from the end (clamped below at 0), a nonnegative one is clamped at the
length. -/
def sliceIdx (len : Nat) (i : Int) : Nat :=
  if i < 0 then ((len : Int) + i).toNat else min len i.toNat

/-- Model of the Python slice `s[i:j]`. -/
def pySlice (s : PyStr) (i j : Int) : PyStr :=
  (s.take (sliceIdx s.length j)).drop (sliceIdx s.length i)

/-- Scan a reversed string right-to-left: `i` is one past the index (in the
original string) of the current character, so the first hit reports index
`i - 1`. -/
def rfindAux : PyStr → Char → Nat → Int
  | [], _, _ => -1
  | x :: xs, c, i => if x = c then (i : Int) - 1 else rfindAux xs c (i - 1)

/-- Model of Python `str.rfind(c)` for a single-character needle: the highest
index at which `c` occurs, or `-1` when it does not occur (computed by
scanning the reversed string for the first occurrence). -/
def rfindChar (s : PyStr) (c : Char) : Int :=
  rfindAux s.reverse c s.length

/-- Model of Python `sub in s` (substring containment), used for the
`'404' in str(e)` test in `delete_all_vectors`. -/
def containsSub (s pat : PyStr) : Bool :=
  match s with
  | [] => decide (pat = [])
  | _ :: tail => pat.isPrefixOf s || containsSub tail pat

/-! ### Regular expressions

Just the constructs appearing in the source's patterns: literal characters,
`.` (any character except newline), alternation, concatenation, `X*`, `X?`,
matched with Brzozowski derivatives.  `re.search` is existence of a match of
the pattern anywhere in the string, i.e. a full match of `Σ* pat Σ*` where
`Σ` is any character (newline included). -/

/-- Regular expressions over characters. -/
inductive RE where
  | emp : RE
  | eps : RE
  | ch (c : Char) : RE
  | dot : RE
  | allc : RE
  | alt (a b : RE) : RE
  | cat (a b : RE) : RE
  | star (a : RE) : RE
deriving DecidableEq

/-- Smart alternation: eliminates the empty language. -/
def RE.salt : RE → RE → RE
  | .emp, b => b
  | a, .emp => a
  | a, b => .alt a b

/-- Smart concatenation: absorbs the empty language, cancels epsilon. -/
def RE.scat : RE → RE → RE
  | .emp, _ => .emp
  | _, .emp => .emp
  | .eps, b => b
  | a, .eps => a
  | a, b => .cat a b

/-- Does the regular expression accept the empty string? -/
def RE.nullable : RE → Bool
  | .emp => false
  | .eps => true
  | .ch _ => false
  | .dot => false
  | .allc => false
  | .alt a b => a.nullable || b.nullable
  | .cat a b => a.nullable && b.nullable
  | .star _ => true

/-- Brzozowski derivative of a regular expression by a character. -/
def RE.deriv : RE → Char → RE
  | .emp, _ => .emp
  | .eps, _ => .emp
  | .ch c, x => if x = c then .eps else .emp
  | .dot, x => if x = '\n' then .emp else .eps
  | .allc, _ => .eps
  | .alt a b, x => RE.salt (a.deriv x) (b.deriv x)
  | .cat a b, x =>
    if a.nullable then RE.salt (RE.scat (a.deriv x) b) (b.deriv x)
    else RE.scat (a.deriv x) b
  | .star a, x => RE.scat (a.deriv x) (.star a)

/-- Full match of a regular expression against a string. -/
def RE.rmatch (r : RE) (s : PyStr) : Bool :=
  (s.foldl RE.deriv r).nullable

/-- Concatenation of a list of regular expressions. -/
def RE.seqList (l : List RE) : RE :=
  l.foldr RE.cat .eps

/-- The regular expression matching a literal string. -/
def RE.lit (s : String) : RE :=
  RE.seqList (s.toList.map RE.ch)

/-- `X?`: zero or one occurrence. -/
def RE.opt (a : RE) : RE := .alt .eps a

/-- Model of Python `re.search(r, s) is not None`: the pattern matches some
substring of `s`. -/
def reSearch (r : RE) (s : PyStr) : Bool :=
  RE.rmatch (.cat (.star .allc) (.cat r (.star .allc))) s

/-! ### The classifier's patterns (source lines 46-91), one per rule. -/

/-- Pattern of rule 1: `check.?in|attendance|qr.?(code|scan)`. -/
def patAttendance : RE :=
  .alt (.cat (RE.lit "check") (.cat (RE.opt .dot) (RE.lit "in")))
    (.alt (RE.lit "attendance")
      (.cat (RE.lit "qr") (.cat (RE.opt .dot) (.alt (RE.lit "code") (RE.lit "scan")))))

/-- Pattern of rule 2: `register.*child|add.*child|child.*record|formal.?id`. -/
def patChildren : RE :=
  .alt (.cat (RE.lit "register") (.cat (.star .dot) (RE.lit "child")))
    (.alt (.cat (RE.lit "add") (.cat (.star .dot) (RE.lit "child")))
      (.alt (.cat (RE.lit "child") (.cat (.star .dot) (RE.lit "record")))
        (.cat (RE.lit "formal") (.cat (RE.opt .dot) (RE.lit "id")))))

/-- Inner pattern of rule 2's task test: `register|add`. -/
def patRegisterAdd : RE := .alt (RE.lit "register") (RE.lit "add")

/-- Pattern of rule 3: `guardian|parent|emergency`. -/
def patGuardians : RE :=
  .alt (RE.lit "guardian") (.alt (RE.lit "parent") (RE.lit "emergency"))

/-- Pattern of rule 4: `report|analytic|dashboard|statistic`. -/
def patReports : RE :=
  .alt (RE.lit "report")
    (.alt (RE.lit "analytic") (.alt (RE.lit "dashboard") (RE.lit "statistic")))

/-- Pattern of rule 5: `staff.*management|volunteer.*assign|access.*level`. -/
def patStaff : RE :=
  .alt (.cat (RE.lit "staff") (.cat (.star .dot) (RE.lit "management")))
    (.alt (.cat (RE.lit "volunteer") (.cat (.star .dot) (RE.lit "assign")))
      (.cat (RE.lit "access") (.cat (.star .dot) (RE.lit "level"))))

/-- Pattern of rule 6: `email.*template|send.*email|smtp`. -/
def patEmail : RE :=
  .alt (.cat (RE.lit "email") (.cat (.star .dot) (RE.lit "template")))
    (.alt (.cat (RE.lit "send") (.cat (.star .dot) (RE.lit "email"))) (RE.lit "smtp"))

/-- Pattern of rule 7: `settings|configuration|api.*key|deployment`. -/
def patSettings : RE :=
  .alt (RE.lit "settings")
    (.alt (RE.lit "configuration")
      (.alt (.cat (RE.lit "api") (.cat (.star .dot) (RE.lit "key"))) (RE.lit "deployment")))

/-- Pattern of rule 8: `navigation|menu|button|sidebar`. -/
def patNavigation : RE :=
  .alt (RE.lit "navigation")
    (.alt (RE.lit "menu") (.alt (RE.lit "button") (RE.lit "sidebar")))

/-- Pattern of rule 9: `error|troubleshoot|fix|debug`. -/
def patTroubleshooting : RE :=
  .alt (RE.lit "error")
    (.alt (RE.lit "troubleshoot") (.alt (RE.lit "fix") (RE.lit "debug")))

/-- Pattern of rule 10: `introduction|overview|getting.*started`. -/
def patOverview : RE :=
  .alt (RE.lit "introduction")
    (.alt (RE.lit "overview") (.cat (RE.lit "getting") (.cat (.star .dot) (RE.lit "started"))))

/-! ### Classifier (`detect_metadata`, source lines 37-101). -/

/-- The metadata record returned by `detect_metadata`. -/
structure Metadata where
  topic : String
  task : String
  role_min : Nat
  page : Nat
deriving DecidableEq, Repr

/-- Model of `detect_metadata` (source lines 37-101): lowercase the text, then
run the ordered if/elif cascade of pattern tests; first match wins; the
initial assignments `general` / `reference` / 1 are the no-match default. -/
def detect_metadata (text : PyStr) (page_num : Nat) : Metadata :=
  let tl := pyLower text
  if reSearch patAttendance tl then
    ⟨"attendance", "procedure", 1, page_num⟩
  else if reSearch patChildren tl then
    ⟨"children", if reSearch patRegisterAdd tl then "procedure" else "navigation", 3, page_num⟩
  else if reSearch patGuardians tl then
    ⟨"guardians", "navigation", 3, page_num⟩
  else if reSearch patReports tl then
    ⟨"reports", "navigation", 5, page_num⟩
  else if reSearch patStaff tl then
    ⟨"staff_management", "navigation", 5, page_num⟩
  else if reSearch patEmail tl then
    ⟨"email", "procedure", 5, page_num⟩
  else if reSearch patSettings tl then
    ⟨"settings", "navigation", 10, page_num⟩
  else if reSearch patNavigation tl then
    ⟨"navigation", "navigation", 1, page_num⟩
  else if reSearch patTroubleshooting tl then
    ⟨"troubleshooting", "troubleshooting", 1, page_num⟩
  else if reSearch patOverview tl then
    ⟨"overview", "reference", 1, page_num⟩
  else
    ⟨"general", "reference", 1, page_num⟩

/-! ### Chunker (`create_chunks`, source lines 133-176). -/

/-- Configured chunk size (`CONFIG['chunk_size']`). -/
def chunk_size : Nat := 800

/-- Configured chunk overlap (`CONFIG['chunk_overlap']`). -/
def chunk_overlap : Nat := 150

/-- A page as produced by the PDF extractor: a 1-based page number and its
raw text. -/
structure Page where
  page_num : Nat
  text : PyStr

/-- A chunk as built at source lines 167-171: the sequential id string, the
trimmed window text, and the fields of `detect_metadata`'s result. -/
structure Chunk where
  id : String
  text : PyStr
  topic : String
  task : String
  role_min : Nat
  page : Nat
deriving DecidableEq, Repr

/-- The id string assigned to the chunk with counter value `n`
(`f'chunk-{chunk_counter}'`, source line 168). -/
def chunkId (n : Nat) : String :=
  "chunk-" ++ Nat.repr n

/-- One iteration's trimmed window text (source lines 149-162), for cursor
position `start` (an integer: the source lets it go negative).  The window is
`text[start : min(start + chunk_size, len(text))]`; when that window stops
short of end-of-text and the later of the last `'.'` and last `'\n'` sits at
an index above `chunk_size * 0.7` (the float `800 * 0.7` is exactly `560.0`,
so the test is `break_point > 560` over integers), the window is re-sliced as
`text[start : start + break_point + 1]`; finally the window is stripped. -/
def chunkWindow (text : PyStr) (start : Int) : PyStr :=
  let e : Int := min (start + (chunk_size : Int)) (text.length : Int)
  let ct := pySlice text start e
  let ct :=
    if e < (text.length : Int) then
      let break_point := max (rfindChar ct '.') (rfindChar ct '\n')
      if break_point > 560 then pySlice text start (start + break_point + 1) else ct
    else ct
  pyStrip ct

/-- The cursor advance at the end of one iteration (source line 174):
`start += len(chunk_text) - chunk_overlap`. -/
def nextStart (text : PyStr) (start : Int) : Int :=
  start + ((chunkWindow text start).length : Int) - (chunk_overlap : Int)

/-- The chunks emitted by one iteration together with the updated counter
(source lines 164-172): a single chunk when the trimmed window is longer than
100 characters, nothing otherwise. -/
def stepEmit (text : PyStr) (page_num : Nat) (start : Int) (ctr : Nat) :
    List Chunk × Nat :=
  let ct := chunkWindow text start
  if 100 < ct.length then
    let md := detect_metadata ct page_num
    ([⟨chunkId ctr, ct, md.topic, md.task, md.role_min, md.page⟩], ctr + 1)
  else ([], ctr)

/-- The per-page `while start < len(text)` loop (source lines 148-174), with
explicit fuel: `none` means the loop did not finish within `fuel` iterations.
Returns the emitted chunks and the final counter. -/
def chunkPageLoop : Nat → PyStr → Nat → Int → Nat → Option (List Chunk × Nat)
  | 0, _, _, _, _ => none
  | fuel + 1, text, page_num, start, ctr =>
    if start < (text.length : Int) then
      let em := stepEmit text page_num start ctr
      match chunkPageLoop fuel text page_num (nextStart text start) em.2 with
      | none => none
      | some (rest, ctrF) => some (em.1 ++ rest, ctrF)
    else some ([], ctr)

/-- The chunks emitted by the first `fuel` iterations of the per-page loop
(its emission trace), together with the counter after those iterations.
Unlike `chunkPageLoop` this is total: it describes the prefix of the emission
sequence even when the loop never exits. -/
def chunkPageTrace : Nat → PyStr → Nat → Int → Nat → List Chunk × Nat
  | 0, _, _, _, ctr => ([], ctr)
  | fuel + 1, text, page_num, start, ctr =>
    if start < (text.length : Int) then
      let em := stepEmit text page_num start ctr
      let rest := chunkPageTrace fuel text page_num (nextStart text start) em.2
      (em.1 ++ rest.1, rest.2)
    else ([], ctr)

/-- Model of `create_chunks` (source lines 133-176): pages processed in
order, the chunk counter threaded through; `none` when some page's loop does
not finish within `fuel` iterations. -/
def create_chunks (fuel : Nat) : List Page → Nat → Option (List Chunk × Nat)
  | [], ctr => some ([], ctr)
  | p :: ps, ctr =>
    match chunkPageLoop fuel p.text p.page_num 0 ctr with
    | none => none
    | some (cs, ctr2) =>
      match create_chunks fuel ps ctr2 with
      | none => none
      | some (rest, ctrF) => some (cs ++ rest, ctrF)

/-- Emission-trace version of `create_chunks`: for each page in order, the
chunks emitted by the first `fuel` iterations of that page's loop, with the
counter threaded through. -/
def createChunksTrace (fuel : Nat) : List Page → Nat → List Chunk × Nat
  | [], ctr => ([], ctr)
  | p :: ps, ctr =>
    let em := chunkPageTrace fuel p.text p.page_num 0 ctr
    let rest := createChunksTrace fuel ps em.2
    (em.1 ++ rest.1, rest.2)

/-- Iterated cursor position: the value of `start` after `n` iterations of
the per-page loop beginning at 0. -/
def nthStart (text : PyStr) : Nat → Int
  | 0 => 0
  | n + 1 => nextStart text (nthStart text n)

/-! ### Spec-side description of one chunking iteration (for claim C1).

Modelled from the spec's words: "the tentative window is
`text[start : min(start + 800, len(text))]`; when the window does not reach
end-of-text, `break_point` is the later of the last `'.'` and the last
`'\n'` in the window and, if `break_point` exceeds `0.7 * 800`, the window
shrinks to end right after that break character; the window is then
whitespace-trimmed, and the cursor advances by (length of the trimmed window
text) minus 150". -/

/-- The spec's description of one iteration's trimmed window. -/
def specWindow (text : PyStr) (start : Int) : PyStr :=
  let e : Int := min (start + 800) (text.length : Int)
  let w := pySlice text start e
  let w :=
    if e < (text.length : Int) then
      let break_point := max (rfindChar w '.') (rfindChar w '\n')
      if 10 * break_point > 7 * 800 then w.take (break_point + 1).toNat else w
    else w
  pyStrip w

/-- The spec's description of the cursor advance: trimmed-window length
minus 150. -/
def specAdvance (text : PyStr) (start : Int) : Int :=
  start + ((specWindow text start).length : Int) - 150

/-! ### Spec-side rule table for the classifier (for claim C2).

Modelled from the spec's words: "an ordered cascade of pattern tests,
evaluated top-to-bottom; the first matching rule wins and all later rules
are skipped; if no rule matches, the default
`{topic: general, task: reference, role_min: 1}` applies". -/

/-- The classifier's ten rules in priority order: a test on the lowercased
text, and the (topic, task, role_min) triple the rule yields. -/
def ruleTable : List ((PyStr → Bool) × (PyStr → String × String × Nat)) :=
  [ (fun t => reSearch patAttendance t, fun _ => ("attendance", "procedure", 1)),
    (fun t => reSearch patChildren t,
      fun t => ("children",
        if reSearch patRegisterAdd t then "procedure" else "navigation", 3)),
    (fun t => reSearch patGuardians t, fun _ => ("guardians", "navigation", 3)),
    (fun t => reSearch patReports t, fun _ => ("reports", "navigation", 5)),
    (fun t => reSearch patStaff t, fun _ => ("staff_management", "navigation", 5)),
    (fun t => reSearch patEmail t, fun _ => ("email", "procedure", 5)),
    (fun t => reSearch patSettings t, fun _ => ("settings", "navigation", 10)),
    (fun t => reSearch patNavigation t, fun _ => ("navigation", "navigation", 1)),
    (fun t => reSearch patTroubleshooting t,
      fun _ => ("troubleshooting", "troubleshooting", 1)),
    (fun t => reSearch patOverview t, fun _ => ("overview", "reference", 1)) ]

/-- First-match evaluation of an ordered rule list, with the spec's default
triple when no rule matches. -/
def firstMatch : List ((PyStr → Bool) × (PyStr → String × String × Nat)) → PyStr →
    String × String × Nat
  | [], _ => ("general", "reference", 1)
  | r :: rs, t => if r.1 t then r.2 t else firstMatch rs t

/-- The spec's description of the classifier: lowercase, then first-match
over the ordered rule table. -/
def specClassify (text : PyStr) (page_num : Nat) : Metadata :=
  let r := firstMatch ruleTable (pyLower text)
  ⟨r.1, r.2.1, r.2.2, page_num⟩

/-! ### Embedder (`generate_embeddings`, source lines 179-213).

The external embedding service is an oracle `svc` from the batch's texts to
the list of returned vectors; vectors are opaque (their float contents play
no role).  Each batch of 100 chunks is sent as one request and each returned
vector is paired with its chunk by position (`for j, e in
enumerate(response.data): {**batch[j], 'embedding': e.embedding}`); the
positional pairing is `List.zip`.  (When the service returned more vectors
than texts the source would raise an IndexError; the claims assume the
service returns exactly one vector per text.) -/

/-- Configured embedding batch size (`CONFIG['embedding_batch_size']`). -/
def embedding_batch_size : Nat := 100

/-- Model of `generate_embeddings`: process chunks in batches of 100, pair
each chunk with its positionally corresponding vector. -/
def generate_embeddings {α : Type} (svc : List PyStr → List α) :
    List Chunk → List (Chunk × α)
  | [] => []
  | c :: cs =>
    let batch := (c :: cs).take embedding_batch_size
    let rest := (c :: cs).drop embedding_batch_size
    batch.zip (svc (batch.map Chunk.text)) ++ generate_embeddings svc rest
termination_by cs => cs.length
decreasing_by simp [List.length_drop, embedding_batch_size]; omega

/-! ### Indexer clear step (`delete_all_vectors`, source lines 250-265) and
the driver's error-propagation policy (`main`, source lines 286-332).

The Pinecone `index.delete(delete_all=True)` call is an oracle result:
`.ok` when it succeeds, `.error msg` when it raises with message `msg`.
`delete_all_vectors` wraps the call in try/except and always returns: a
`404` message is reported as "Index already empty", any other error as
"Continuing anyway".  In `main`, every other stage runs inside one
try/except whose handler exits with status 1, so any other stage's error
propagates to a fatal run failure. -/

/-- The three ways `delete_all_vectors` can return (it never raises). -/
inductive ClearOutcome where
  | cleared : ClearOutcome
  | alreadyEmpty : ClearOutcome
  | continuedAnyway : ClearOutcome
deriving DecidableEq, Repr

/-- Model of `delete_all_vectors`: total function of the delete call's
outcome. -/
def delete_all_vectors (deleteRes : Except PyStr Unit) : ClearOutcome :=
  match deleteRes with
  | .ok _ => .cleared
  | .error e => if containsSub e "404".toList then .alreadyEmpty else .continuedAnyway

/-- Model of `main`'s stage sequencing and error propagation: the clear
step's outcome is consumed by `delete_all_vectors` and never aborts the run;
a failure of extraction, embedding, or upload aborts the run with that
error. -/
def pipelineRun (clearRes : Except PyStr Unit) (extractRes : Except PyStr (List Page))
    (embedErr : Option PyStr) (uploadErr : Option PyStr) : Except PyStr Unit :=
  match delete_all_vectors clearRes with
  | _ =>
    match extractRes with
    | .error m => .error m
    | .ok _ =>
      match embedErr with
      | some m => .error m
      | none =>
        match uploadErr with
        | some m => .error m
        | none => .ok ()

/-! ### Decimal decoding (used to show chunk ids are pairwise distinct). -/

/-- The numeric value of a decimal digit character. -/
def digitVal (c : Char) : Nat := c.toNat - 48

/-- Fold a digit string onto an accumulator, most significant digit first. -/
def decodeFrom (a : Nat) (l : List Char) : Nat :=
  l.foldl (fun x c => 10 * x + digitVal c) a

/-! ### Concrete page texts used in the claims. -/

/-- A page of 120 letters followed by 80 spaces (length 200, trimmed length
120): its first window trims to fewer than `chunk_overlap` characters. -/
def c3Text : PyStr := List.replicate 120 'a' ++ List.replicate 80 ' '

/-- The spec's example page `"A." * 50 + "\n" + "B." * 50` (length 201). -/
def c6Text : PyStr :=
  (List.replicate 50 ['A', '.']).flatten ++ '\n' :: (List.replicate 50 ['B', '.']).flatten

/-- A page of exactly 150 characters of plain prose matching none of the
classifier patterns. -/
def c7Text : PyStr :=
  ("The quick brown animal walks slowly across a quiet meadow while soft music "
    ++ "plays far away and the calm breeze moves gently over tall green grass today").toList

/-- A page (length 638) of 50 letters, 511 spaces, one period at index 561,
and 76 trailing spaces: running the loop on it drives the cursor to -838,
where the code's re-slice `text[start : start + break_point + 1]` no longer
ends right after the break character. -/
def c1Text : PyStr :=
  List.replicate 50 'a' ++ List.replicate 511 ' ' ++ '.' :: List.replicate 76 ' '

/-- A 50-character page: trimmed length at most 100, so no chunk is ever
emitted for it. -/
def smallText : PyStr := List.replicate 50 'a'

/-! ## Helper lemmas -/

theorem dropWhile_head_false (p : Char → Bool) :
    ∀ (l : List Char) (c : Char) (l' : List Char), l.dropWhile p = c :: l' → p c = false := by
  intro l
  induction l with
  | nil => intro c l' h; simp [List.dropWhile] at h
  | cons x xs ih =>
    intro c l' h
    by_cases hx : p x
    · rw [List.dropWhile_cons, if_pos hx] at h
      exact ih c l' h
    · rw [List.dropWhile_cons, if_neg hx] at h
      obtain ⟨rfl, -⟩ := List.cons.inj h
      simpa using hx

theorem pyStrip_reverse_eq (w : PyStr) :
    (pyStrip w).reverse = ((w.dropWhile pyIsSpace).reverse).dropWhile pyIsSpace := by
  simp [pyStrip]

theorem pyStrip_prefix_dropWhile (w : PyStr) : pyStrip w <+: w.dropWhile pyIsSpace := by
  have h := List.dropWhile_suffix (l := (w.dropWhile pyIsSpace).reverse) pyIsSpace
  have h2 := List.reverse_prefix.mpr h
  rwa [List.reverse_reverse] at h2

theorem pyStrip_infix_self (w : PyStr) : pyStrip w <:+: w :=
  (pyStrip_prefix_dropWhile w).isInfix.trans (List.dropWhile_suffix pyIsSpace).isInfix

theorem pyStrip_head_false (w : PyStr) (c : Char) (l : PyStr)
    (h : pyStrip w = c :: l) : pyIsSpace c = false := by
  obtain ⟨t, ht⟩ := pyStrip_prefix_dropWhile w
  rw [h, List.cons_append] at ht
  exact dropWhile_head_false pyIsSpace w c (l ++ t) ht.symm

theorem pyStrip_reverse_head_false (w : PyStr) (c : Char) (l : PyStr)
    (h : (pyStrip w).reverse = c :: l) : pyIsSpace c = false := by
  rw [pyStrip_reverse_eq] at h
  exact dropWhile_head_false pyIsSpace _ c l h

theorem infix_dropWhile (v t : PyStr)
    (hhead : ∀ c l, v = c :: l → pyIsSpace c = false)
    (hv : v <:+: t) : v <:+: t.dropWhile pyIsSpace := by
  obtain ⟨x, y, hxy⟩ := hv
  subst hxy
  induction x with
  | nil =>
    cases v with
    | nil => exact List.nil_infix
    | cons c l =>
      simp only [List.nil_append, List.cons_append]
      rw [List.dropWhile_cons, if_neg (by simp [hhead c l rfl])]
      exact ⟨[], y, by simp⟩
  | cons h x ih =>
    simp only [List.cons_append]
    by_cases hs : pyIsSpace h
    · rw [List.dropWhile_cons, if_pos hs]
      simpa only [List.cons_append, List.append_assoc] using ih
    · rw [List.dropWhile_cons, if_neg hs]
      exact ⟨h :: x, y, by simp⟩

theorem pyStrip_infix_mono (w s : PyStr) (h : w <:+: s) : pyStrip w <:+: pyStrip s := by
  have h1 : pyStrip w <:+: s := (pyStrip_infix_self w).trans h
  have h2 : pyStrip w <:+: s.dropWhile pyIsSpace :=
    infix_dropWhile _ _ (fun c l hc => pyStrip_head_false w c l hc) h1
  have h3 : (pyStrip w).reverse <:+: (s.dropWhile pyIsSpace).reverse :=
    List.reverse_infix.mpr h2
  have h4 : (pyStrip w).reverse <:+: ((s.dropWhile pyIsSpace).reverse).dropWhile pyIsSpace :=
    infix_dropWhile _ _ (fun c l hc => pyStrip_reverse_head_false w c l hc) h3
  have h5 := List.reverse_infix.mpr h4
  rw [List.reverse_reverse] at h5
  exact h5

theorem pySlice_infix_self (s : PyStr) (i j : Int) : pySlice s i j <:+: s :=
  (List.drop_suffix _ _).isInfix.trans (List.take_prefix _ _).isInfix

theorem pyStrip_slice_length_le (s : PyStr) (i j : Int) :
    (pyStrip (pySlice s i j)).length ≤ (pyStrip s).length :=
  (pyStrip_infix_mono _ _ (pySlice_infix_self s i j)).length_le

theorem chunkWindow_length_le (t : PyStr) (s : Int) :
    (chunkWindow t s).length ≤ (pyStrip t).length := by
  simp only [chunkWindow]
  split_ifs <;> apply pyStrip_slice_length_le

theorem rfindAux_lt (c : Char) : ∀ (l : PyStr) (i : Nat), rfindAux l c i < (i : Int) := by
  intro l
  induction l with
  | nil => intro i; simp only [rfindAux]; omega
  | cons x xs ih =>
    intro i
    simp only [rfindAux]
    split_ifs
    · omega
    · have := ih (i - 1)
      omega

theorem rfindChar_lt_length (s : PyStr) (c : Char) : rfindChar s c < (s.length : Int) :=
  rfindAux_lt c s.reverse s.length

theorem sliceIdx_le (len : Nat) (i : Int) : sliceIdx len i ≤ len := by
  unfold sliceIdx
  split_ifs <;> omega

theorem pySlice_length (s : PyStr) (i j : Int) :
    (pySlice s i j).length = sliceIdx s.length j - sliceIdx s.length i := by
  simp only [pySlice, List.length_drop, List.length_take]
  rw [Nat.min_eq_left (sliceIdx_le _ _)]

theorem chunkPageLoop_stall (t : PyStr) (p : Nat) (s : Int)
    (hs : nextStart t s = s) (hlt : s < (t.length : Int)) :
    ∀ fuel ctr, chunkPageLoop fuel t p s ctr = none := by
  intro fuel
  induction fuel with
  | zero => intro ctr; rfl
  | succ n ih =>
    intro ctr
    simp only [chunkPageLoop, if_pos hlt, hs, ih]

theorem range1_append (s m n : Nat) :
    List.range' s m ++ List.range' (s + m) n = List.range' s (m + n) := by
  have h := List.range'_append s m n 1
  simp only [one_mul] at h
  rw [Nat.add_comm n m] at h
  exact h

theorem chunkPageTrace_spec (fuel : Nat) : ∀ (t : PyStr) (p : Nat) (s : Int) (ctr : Nat),
    ((chunkPageTrace fuel t p s ctr).1.map Chunk.id
      = (List.range' ctr (chunkPageTrace fuel t p s ctr).1.length).map chunkId)
    ∧ (chunkPageTrace fuel t p s ctr).2 = ctr + (chunkPageTrace fuel t p s ctr).1.length
    ∧ ∀ ch ∈ (chunkPageTrace fuel t p s ctr).1, 100 < ch.text.length := by
  induction fuel with
  | zero =>
    intro t p s ctr
    simp [chunkPageTrace, List.range']
  | succ n ih =>
    intro t p s ctr
    simp only [chunkPageTrace]
    by_cases hc : s < (t.length : Int)
    · rw [if_pos hc]
      simp only [stepEmit]
      by_cases hw : 100 < (chunkWindow t s).length
      · rw [if_pos hw]
        obtain ⟨ih1, ih2, ih3⟩ := ih t p (nextStart t s) (ctr + 1)
        refine ⟨?_, ?_, ?_⟩
        · simp only [List.cons_append, List.nil_append, List.map_cons, List.length_cons,
            List.range'_succ, ih1]
        · simpa only [List.cons_append, List.nil_append, List.length_cons, ih2] using by omega
        · intro ch hch
          simp only [List.cons_append, List.nil_append, List.mem_cons] at hch
          rcases hch with rfl | hch
          · exact hw
          · exact ih3 ch hch
      · rw [if_neg hw]
        obtain ⟨ih1, ih2, ih3⟩ := ih t p (nextStart t s) ctr
        exact ⟨by simpa using ih1, by simpa using ih2, by simpa using ih3⟩
    · rw [if_neg hc]
      simp [List.range']

theorem createChunksTrace_spec (fuel : Nat) : ∀ (pages : List Page) (ctr : Nat),
    ((createChunksTrace fuel pages ctr).1.map Chunk.id
      = (List.range' ctr (createChunksTrace fuel pages ctr).1.length).map chunkId)
    ∧ (createChunksTrace fuel pages ctr).2 = ctr + (createChunksTrace fuel pages ctr).1.length
    ∧ ∀ ch ∈ (createChunksTrace fuel pages ctr).1, 100 < ch.text.length := by
  intro pages
  induction pages with
  | nil =>
    intro ctr
    simp [createChunksTrace, List.range']
  | cons p ps ih =>
    intro ctr
    simp only [createChunksTrace]
    obtain ⟨h1, h2, h3⟩ := chunkPageTrace_spec fuel p.text p.page_num 0 ctr
    obtain ⟨g1, g2, g3⟩ := ih (chunkPageTrace fuel p.text p.page_num 0 ctr).2
    refine ⟨?_, ?_, ?_⟩
    · rw [List.map_append, h1, g1, h2, List.length_append, ← range1_append,
        ← List.map_append]
    · rw [g2, h2, List.length_append]
      omega
    · intro ch hch
      rcases List.mem_append.mp hch with hch | hch
      · exact h3 ch hch
      · exact g3 ch hch

theorem digitVal_digitChar (m : Nat) (h : m < 10) : digitVal (Nat.digitChar m) = m := by
  interval_cases m <;> rfl

theorem decode_toDigitsCore : ∀ (fuel n : Nat) (ds : List Char), n < fuel →
    decodeFrom 0 (Nat.toDigitsCore 10 fuel n ds) = decodeFrom n ds := by
  intro fuel
  induction fuel with
  | zero => intro n ds h; omega
  | succ fuel ih =>
    intro n ds hf
    by_cases h0 : n / 10 = 0
    · have hn : n < 10 := by omega
      rw [show Nat.toDigitsCore 10 (fuel + 1) n ds = (n % 10).digitChar :: ds from by
        simp [Nat.toDigitsCore, h0]]
      have hmod : n % 10 = n := Nat.mod_eq_of_lt hn
      simp [decodeFrom, hmod, digitVal_digitChar n hn]
    · rw [show Nat.toDigitsCore 10 (fuel + 1) n ds
          = Nat.toDigitsCore 10 fuel (n / 10) ((n % 10).digitChar :: ds) from by
        simp [Nat.toDigitsCore, h0]]
      rw [ih (n / 10) _ (by omega)]
      simp only [decodeFrom, List.foldl_cons, digitVal_digitChar (n % 10) (by omega)]
      have hsplit : 10 * (n / 10) + n % 10 = n := by omega
      rw [hsplit]

theorem natReprData_inj (m n : Nat) (h : (Nat.repr m).data = (Nat.repr n).data) : m = n := by
  have hm : decodeFrom 0 (Nat.toDigitsCore 10 (m + 1) m []) = m :=
    decode_toDigitsCore (m + 1) m [] (by omega)
  have hn : decodeFrom 0 (Nat.toDigitsCore 10 (n + 1) n []) = n :=
    decode_toDigitsCore (n + 1) n [] (by omega)
  have hd : Nat.toDigitsCore 10 (m + 1) m [] = Nat.toDigitsCore 10 (n + 1) n [] := h
  rw [← hm, ← hn, hd]

theorem chunkId_injective : Function.Injective chunkId := by
  intro m n h
  have hd : "chunk-".data ++ (Nat.repr m).data = "chunk-".data ++ (Nat.repr n).data :=
    congrArg String.data h
  exact natReprData_inj m n (List.append_cancel_left hd)

/-! ## Claim theorems -/

/-- C2: `detect_metadata` is pure, deterministic and total — every input
string yields exactly one metadata triple; it is exactly first-match
evaluation of the ten-rule priority table (top-to-bottom, first match wins);
in particular any text matching both the rule-1 check-in pattern and the
rule-4 report pattern classifies as attendance/procedure/1; and when no rule
matches, the default general/reference/1 applies. -/
theorem detect_metadata_cascade :
    (∀ (text : PyStr) (p : Nat), ∃! m : Metadata, detect_metadata text p = m)
    ∧ (∀ (text : PyStr) (p : Nat), detect_metadata text p = specClassify text p)
    ∧ (∀ (text : PyStr) (p : Nat),
        reSearch patAttendance (pyLower text) = true →
        reSearch patReports (pyLower text) = true →
        detect_metadata text p = ⟨"attendance", "procedure", 1, p⟩)
    ∧ (∀ (text : PyStr) (p : Nat),
        reSearch patAttendance (pyLower text) = false →
        reSearch patChildren (pyLower text) = false →
        reSearch patGuardians (pyLower text) = false →
        reSearch patReports (pyLower text) = false →
        reSearch patStaff (pyLower text) = false →
        reSearch patEmail (pyLower text) = false →
        reSearch patSettings (pyLower text) = false →
        reSearch patNavigation (pyLower text) = false →
        reSearch patTroubleshooting (pyLower text) = false →
        reSearch patOverview (pyLower text) = false →
        detect_metadata text p = ⟨"general", "reference", 1, p⟩) := by
  refine ⟨fun text p => ⟨detect_metadata text p, rfl, fun y hy => hy.symm⟩, ?_, ?_, ?_⟩
  · intro text p
    simp only [detect_metadata, specClassify, ruleTable, firstMatch]
    generalize reSearch patAttendance (pyLower text) = b1
    generalize reSearch patChildren (pyLower text) = b2
    generalize reSearch patRegisterAdd (pyLower text) = b2t
    generalize reSearch patGuardians (pyLower text) = b3
    generalize reSearch patReports (pyLower text) = b4
    generalize reSearch patStaff (pyLower text) = b5
    generalize reSearch patEmail (pyLower text) = b6
    generalize reSearch patSettings (pyLower text) = b7
    generalize reSearch patNavigation (pyLower text) = b8
    generalize reSearch patTroubleshooting (pyLower text) = b9
    generalize reSearch patOverview (pyLower text) = b10
    cases b1 <;> cases b2 <;> cases b2t <;> cases b3 <;> cases b4 <;> cases b5 <;>
      cases b6 <;> cases b7 <;> cases b8 <;> cases b9 <;> cases b10 <;> rfl
  · intro text p h1 _h4
    simp only [detect_metadata]
    rw [h1, if_pos rfl]
  · intro text p h1 h2 h3 h4 h5 h6 h7 h8 h9 h10
    simp only [detect_metadata]
    rw [h1, h2, h3, h4, h5, h6, h7, h8, h9, h10]
    simp only [Bool.false_eq_true, if_false]

set_option maxRecDepth 8000 in
/-- Concrete instance of `detect_metadata_cascade`: a text with both
check-in and report terms classifies as attendance/procedure/1, and a
plain-prose text with no rule matches gets the default. -/
theorem detect_metadata_cascade_witness :
    detect_metadata "check-in and report".toList 4 = ⟨"attendance", "procedure", 1, 4⟩
    ∧ detect_metadata c7Text 2 = ⟨"general", "reference", 1, 2⟩ :=
  ⟨detect_metadata_cascade.2.2.1 _ 4 (by decide) (by decide),
   detect_metadata_cascade.2.2.2 _ 2 (by decide) (by decide) (by decide) (by decide)
     (by decide) (by decide) (by decide) (by decide) (by decide) (by decide)⟩

theorem ite_mem {α : Type} (c : Prop) [Decidable c] (x y : α) (l : List α)
    (hx : x ∈ l) (hy : y ∈ l) : (if c then x else y) ∈ l := by
  by_cases h : c
  · rwa [if_pos h]
  · rwa [if_neg h]

/-- C10: for every input string and page number the classifier's result
stays within fixed finite sets: role_min in {1, 3, 5, 10}, task one of four
values, topic one of eleven values. -/
theorem detect_metadata_range (text : PyStr) (p : Nat) :
    (detect_metadata text p).role_min ∈ [1, 3, 5, 10]
    ∧ (detect_metadata text p).task ∈
        ["procedure", "navigation", "reference", "troubleshooting"]
    ∧ (detect_metadata text p).topic ∈
        ["general", "attendance", "children", "guardians", "reports",
         "staff_management", "email", "settings", "navigation",
         "troubleshooting", "overview"] := by
  simp only [detect_metadata]
  refine ⟨?_, ?_, ?_⟩ <;>
    simp only [apply_ite Metadata.role_min, apply_ite Metadata.task,
      apply_ite Metadata.topic] <;>
    (repeat' apply ite_mem) <;> decide

/-- C4: every chunk the chunker emits has trimmed text strictly longer than
100 characters; a window whose trimmed text is at most 100 characters is
silently discarded (nothing emitted, counter unchanged, no error); and a
page whose whole trimmed text is at most 100 characters never yields a
chunk, from any cursor position and within any iteration budget. -/
theorem chunk_length_invariant :
    (∀ (fuel : Nat) (pages : List Page) (ctr : Nat) (ch : Chunk),
        ch ∈ (createChunksTrace fuel pages ctr).1 → 100 < ch.text.length)
    ∧ (∀ (t : PyStr) (p : Nat) (s : Int) (ctr : Nat),
        (chunkWindow t s).length ≤ 100 → stepEmit t p s ctr = ([], ctr))
    ∧ (∀ (fuel : Nat) (t : PyStr) (p : Nat) (s : Int) (ctr : Nat),
        (pyStrip t).length ≤ 100 → (chunkPageTrace fuel t p s ctr).1 = []) := by
  refine ⟨?_, ?_, ?_⟩
  · intro fuel pages ctr ch hch
    exact (createChunksTrace_spec fuel pages ctr).2.2 ch hch
  · intro t p s ctr h
    simp only [stepEmit, if_neg (by omega : ¬ 100 < (chunkWindow t s).length)]
  · intro fuel
    induction fuel with
    | zero => intro t p s ctr h; rfl
    | succ n ih =>
      intro t p s ctr h
      simp only [chunkPageTrace]
      by_cases hc : s < (t.length : Int)
      · rw [if_pos hc]
        have hw : ¬ 100 < (chunkWindow t s).length := by
          have := chunkWindow_length_le t s
          omega
        simp only [stepEmit, if_neg hw, List.nil_append]
        exact ih t p _ _ h
      · rw [if_neg hc]

set_option maxRecDepth 8000 in
/-- Concrete instance of `chunk_length_invariant`: the chunk emitted for the
201-character example page is longer than 100 characters; a 50-character
page's window is discarded with the counter unchanged; and that page never
yields a chunk. -/
theorem chunk_length_invariant_witness :
    100 < (Chunk.text ⟨chunkId 0, c6Text, "general", "reference", 1, 1⟩).length
    ∧ stepEmit smallText 1 0 7 = ([], 7)
    ∧ (chunkPageTrace 3 smallText 1 0 0).1 = [] :=
  ⟨chunk_length_invariant.1 1 [⟨1, c6Text⟩] 0 _ (by decide),
   chunk_length_invariant.2.1 smallText 1 0 7 (by decide),
   chunk_length_invariant.2.2 3 smallText 1 0 0 (by decide)⟩

/-- C5: across one whole run (any page sequence, any iteration budget,
counter starting at 0) the emitted chunk ids are, in emission order, exactly
`chunk-0, chunk-1, ...` — formatted deterministically from a strictly
increasing counter — and therefore pairwise distinct; the final counter
value equals the number of chunks emitted. -/
theorem chunk_ids_distinct (fuel : Nat) (pages : List Page) :
    (createChunksTrace fuel pages 0).1.map Chunk.id
      = (List.range (createChunksTrace fuel pages 0).1.length).map chunkId
    ∧ ((createChunksTrace fuel pages 0).1.map Chunk.id).Nodup
    ∧ (createChunksTrace fuel pages 0).2 = (createChunksTrace fuel pages 0).1.length := by
  obtain ⟨h1, h2, -⟩ := createChunksTrace_spec fuel pages 0
  refine ⟨by rw [List.range_eq_range']; exact h1, ?_, by omega⟩
  rw [h1]
  exact List.Nodup.map chunkId_injective (List.nodup_range' _ _)

set_option maxRecDepth 8000 in
/-- C3: there is a page text whose very first window trims to fewer than
`chunk_overlap` = 150 characters, making the cursor advance negative (zero
or below), and the per-page loop on that page never terminates: it returns
no result within any finite iteration budget. -/
theorem chunker_can_stall :
    ∃ t : PyStr, (chunkWindow t 0).length < chunk_overlap
      ∧ nextStart t 0 ≤ 0
      ∧ ∀ (fuel p ctr : Nat), chunkPageLoop fuel t p 0 ctr = none := by
  refine ⟨c3Text, by decide, by decide, ?_⟩
  have hstrip : (pyStrip c3Text).length = 120 := by decide
  have hlen : (c3Text.length : Int) = 200 := by decide
  have key : ∀ (fuel : Nat) (p ctr : Nat) (s : Int), s ≤ 0 →
      chunkPageLoop fuel c3Text p s ctr = none := by
    intro fuel
    induction fuel with
    | zero => intro p ctr s _; rfl
    | succ n ih =>
      intro p ctr s hs
      have hnext : nextStart c3Text s ≤ 0 := by
        have hw := chunkWindow_length_le c3Text s
        simp only [nextStart, chunk_overlap]
        omega
      simp only [chunkPageLoop, if_pos (show s < (c3Text.length : Int) by omega),
        ih p _ _ hnext]
  intro fuel p ctr
  exact key fuel p ctr 0 le_rfl

set_option maxRecDepth 8000 in
/-- C6 counterexample: the spec's example page `"A." * 50 + "\n" + "B." * 50`
has length 201 (not greater than 800 as the spec states), and `create_chunks`
never returns on it: the per-page loop yields no result within any finite
iteration budget, so the Chunker does not "produce" any chunk list at all. -/
theorem c6_example_page_diverges :
    c6Text.length = 201 ∧ ∀ (fuel ctr : Nat), chunkPageLoop fuel c6Text 1 0 ctr = none := by
  refine ⟨by decide, ?_⟩
  intro fuel ctr
  match fuel with
  | 0 => rfl
  | n + 1 =>
    have h51 : nextStart c6Text 0 = 51 := by decide
    simp only [chunkPageLoop, if_pos (show (0 : Int) < (c6Text.length : Int) by decide),
      h51, chunkPageLoop_stall c6Text 1 51 (by decide) (by decide) n]

set_option maxRecDepth 8000 in
/-- C6 amended: on the spec's example page (length 201), the loop's emission
trace does contain at least two chunks — the first is the whole trimmed page
(which is the page itself, ending at position 201, right after a period),
the second is the window starting at position 51 = 201 − 150 — but the
cursor then stalls at 51 (the 150-character window minus the 150 overlap
advances it by zero), so the same chunk is re-emitted forever and the loop
never terminates. -/
theorem c6_example_page_trace :
    chunkPageTrace 2 c6Text 1 0 0
      = ([⟨chunkId 0, c6Text, "general", "reference", 1, 1⟩,
          ⟨chunkId 1, pySlice c6Text 51 201, "general", "reference", 1, 1⟩], 2)
    ∧ pyStrip c6Text = c6Text
    ∧ nextStart c6Text 0 = 51
    ∧ (pySlice c6Text 51 201).length = 150
    ∧ nextStart c6Text 51 = 51 := by
  refine ⟨by decide, by decide, by decide, by decide, by decide⟩

set_option maxRecDepth 8000 in
/-- C7 counterexample: on a single page of exactly 150 characters of plain
prose with no pattern matches, the pipeline does not yield exactly one
chunk: `create_chunks` never returns (the trimmed window equals the whole
page, so the cursor advance is 150 − 150 = 0), and the loop's emission trace
already contains two chunks after two iterations. -/
theorem c7_single_chunk_fails :
    c7Text.length = 150
    ∧ (∀ fuel : Nat, create_chunks fuel [⟨1, c7Text⟩] 0 = none)
    ∧ 2 ≤ (chunkPageTrace 2 c7Text 1 0 0).1.length := by
  refine ⟨by decide, ?_, by decide⟩
  intro fuel
  simp only [create_chunks, chunkPageLoop_stall c7Text 1 0 (by decide) (by decide) fuel]

set_option maxRecDepth 8000 in
/-- C7 amended: the first chunk emitted for the 150-character plain-prose
page is exactly the claimed one — the whole page with topic `general`, task
`reference`, role_min 1, page 1 — but the cursor advance at position 0 is
zero, so the loop stalls and every further iteration re-emits the same text
(with a fresh id) instead of terminating with exactly one chunk. -/
theorem c7_first_emission :
    chunkPageTrace 1 c7Text 1 0 0 = ([⟨chunkId 0, c7Text, "general", "reference", 1, 1⟩], 1)
    ∧ nextStart c7Text 0 = 0
    ∧ (chunkPageTrace 2 c7Text 1 0 0).1.map Chunk.text = [c7Text, c7Text] := by
  refine ⟨by decide, by decide, by decide⟩

/-- C8: assuming the embedding service returns exactly one vector per input
text (in request order), `generate_embeddings` returns one embedded chunk
per input chunk, in the same order: the underlying chunk of the i-th output
is the i-th input chunk (hence ids match positionally), and the output
length equals the input length. -/
theorem generate_embeddings_order {α : Type} (svc : List PyStr → List α)
    (hsvc : ∀ ts, (svc ts).length = ts.length) (chunks : List Chunk) :
    (generate_embeddings svc chunks).map Prod.fst = chunks
    ∧ (generate_embeddings svc chunks).length = chunks.length := by
  have main : ∀ (n : Nat) (cs : List Chunk), cs.length ≤ n →
      (generate_embeddings svc cs).map Prod.fst = cs := by
    intro n
    induction n with
    | zero =>
      intro cs h
      have hnil : cs = [] := List.eq_nil_of_length_eq_zero (by omega)
      subst hnil
      simp [generate_embeddings]
    | succ n ih =>
      intro cs h
      match cs with
      | [] => simp [generate_embeddings]
      | c :: cs' =>
        rw [generate_embeddings, List.map_append]
        have hlen : ((c :: cs').take embedding_batch_size).length
            ≤ (svc (((c :: cs').take embedding_batch_size).map Chunk.text)).length := by
          rw [hsvc, List.length_map]
        rw [List.map_fst_zip _ _ hlen]
        rw [ih ((c :: cs').drop embedding_batch_size) (by
          simp only [List.length_drop, List.length_cons, embedding_batch_size] at h ⊢
          omega)]
        exact List.take_append_drop _ _
  refine ⟨main chunks.length chunks le_rfl, ?_⟩
  have h := main chunks.length chunks le_rfl
  calc (generate_embeddings svc chunks).length
      = ((generate_embeddings svc chunks).map Prod.fst).length := by rw [List.length_map]
    _ = chunks.length := by rw [h]

/-- Concrete instance of `generate_embeddings_order` with the identity
service (one "vector" per text): a one-chunk batch maps to itself. -/
theorem generate_embeddings_order_witness :
    (generate_embeddings (id : List PyStr → List PyStr)
        [⟨chunkId 0, c7Text, "general", "reference", 1, 1⟩]).map Prod.fst
      = [⟨chunkId 0, c7Text, "general", "reference", 1, 1⟩]
    ∧ (generate_embeddings (id : List PyStr → List PyStr)
        [⟨chunkId 0, c7Text, "general", "reference", 1, 1⟩]).length = 1 :=
  generate_embeddings_order id (fun _ => rfl) _

/-- C9: the clear step never aborts the run — `delete_all_vectors` is a
total function of the delete call's outcome, the run result is independent
of that outcome, a `404` failure is reported as already-empty (success), and
any other failure only makes it report that it continues anyway — while a
failure of extraction, embedding, or upload each propagates and aborts the
run with that error, so clear is the only stage whose failure is
swallowed. -/
theorem clear_failure_swallowed :
    (∀ (r r' : Except PyStr Unit) (e : Except PyStr (List Page)) (em up : Option PyStr),
        pipelineRun r e em up = pipelineRun r' e em up)
    ∧ (∀ msg : PyStr, containsSub msg "404".toList = true →
        delete_all_vectors (.error msg) = .alreadyEmpty)
    ∧ (∀ msg : PyStr, containsSub msg "404".toList = false →
        delete_all_vectors (.error msg) = .continuedAnyway)
    ∧ (∀ (r : Except PyStr Unit) (m : PyStr) (em up : Option PyStr),
        pipelineRun r (.error m) em up = .error m)
    ∧ (∀ (r : Except PyStr Unit) (pages : List Page) (m : PyStr) (up : Option PyStr),
        pipelineRun r (.ok pages) (some m) up = .error m)
    ∧ (∀ (r : Except PyStr Unit) (pages : List Page) (m : PyStr),
        pipelineRun r (.ok pages) none (some m) = .error m) := by
  refine ⟨?_, ?_, ?_, ?_, ?_, ?_⟩
  · intro r r' e em up
    cases delete_all_vectors r <;> cases delete_all_vectors r' <;> rfl
  · intro msg h
    simp only [delete_all_vectors, h, if_true]
  · intro msg h
    simp only [delete_all_vectors, h, Bool.false_eq_true, if_false]
  · intro r m em up
    cases delete_all_vectors r <;> rfl
  · intro r pages m up
    cases delete_all_vectors r <;> rfl
  · intro r pages m
    cases delete_all_vectors r <;> rfl

/-- Concrete instance of `clear_failure_swallowed`: a 404 delete failure is
treated as already-empty, any other message is swallowed with a warning. -/
theorem clear_failure_swallowed_witness :
    delete_all_vectors (.error "HTTP 404 not found".toList) = .alreadyEmpty
    ∧ delete_all_vectors (.error "connection timed out".toList) = .continuedAnyway :=
  ⟨clear_failure_swallowed.2.1 _ (by decide),
   clear_failure_swallowed.2.2.1 _ (by decide)⟩

theorem sliceIdx_shrink (L : Nat) (start bp : Int)
    (h : -(L : Int) ≤ start) (he : start + 800 < (L : Int)) (hbp : 560 < bp)
    (hb : bp + 1 ≤ (sliceIdx L (start + 800) : Int) - (sliceIdx L start : Int)) :
    sliceIdx L (start + bp + 1) - sliceIdx L start
      = min (bp + 1).toNat (sliceIdx L (start + 800) - sliceIdx L start) := by
  simp only [sliceIdx] at hb ⊢
  split_ifs at hb ⊢ <;> omega

/-- C1 (amended): for every page text and every cursor value no lower than
`-len(text)` — which covers the initial cursor 0 and every state of a
well-behaved run — one chunking iteration behaves exactly as the claim
describes: the tentative window is `text[start : min(start + 800,
len(text))]`; when it stops short of end-of-text and the later of the last
`'.'` and `'\n'` lies above 0.7 · 800, the window shrinks to end right after
that break character; the window is whitespace-trimmed and the cursor
advances by its trimmed length minus 150.  (Below `-len(text)` the code's
re-slice `text[start : start + break_point + 1]` can clamp to position 0 and
no longer ends right after the break character; see the counterexample.) -/
theorem chunkWindow_matches_spec (text : PyStr) (start : Int)
    (h : -(text.length : Int) ≤ start) :
    chunkWindow text start = specWindow text start
    ∧ nextStart text start = specAdvance text start := by
  have hwin : chunkWindow text start = specWindow text start := by
    simp only [chunkWindow, specWindow, chunk_size, Nat.cast_ofNat]
    by_cases he : min (start + 800) ((text.length : Nat) : Int) < ((text.length : Nat) : Int)
    · rw [if_pos he, if_pos he]
      have heq : min (start + 800) ((text.length : Nat) : Int) = start + 800 := by omega
      rw [heq]
      set w := pySlice text start (start + 800) with hw
      set bp := max (rfindChar w '.') (rfindChar w '\n') with hbp
      have hiff : bp > 560 ↔ 10 * bp > 7 * 800 := by omega
      by_cases hcond : bp > 560
      · rw [if_pos hcond, if_pos (hiff.mp hcond)]
        congr 1
        have hdot := rfindChar_lt_length w '.'
        have hnl := rfindChar_lt_length w '\n'
        have hblt : bp < (w.length : Int) := by omega
        have hwlen : w.length
            = sliceIdx text.length (start + 800) - sliceIdx text.length start := by
          rw [hw, pySlice_length]
        have hb : bp + 1 ≤ (sliceIdx text.length (start + 800) : Int)
            - (sliceIdx text.length start : Int) := by
          have hle := sliceIdx_le text.length start
          omega
        have key := sliceIdx_shrink text.length start bp h (by omega) hcond hb
        rw [hw]
        simp only [pySlice, List.drop_take, List.take_take]
        rw [key]
      · rw [if_neg hcond, if_neg (fun hx => hcond (hiff.mpr hx))]
    · rw [if_neg he, if_neg he]
  refine ⟨hwin, ?_⟩
  simp only [nextStart, specAdvance, chunk_overlap, hwin, Nat.cast_ofNat]

set_option maxRecDepth 8000 in
/-- Concrete instance of `chunkWindow_matches_spec` at the example page and
the initial cursor. -/
theorem chunkWindow_matches_spec_witness :
    chunkWindow c6Text 0 = specWindow c6Text 0
    ∧ nextStart c6Text 0 = specAdvance c6Text 0 :=
  chunkWindow_matches_spec c6Text 0 (by decide)

set_option maxRecDepth 8000 in
/-- C1 counterexample: on the 638-character page `c1Text`, the loop's cursor
(started at 0) reaches −838 after ten iterations, each taken with the loop
condition still true; at that state the break point is past 0.7 · 800, and
the code's re-slice `text[start : start + break_point + 1]` — whose left and
right bounds both clamp via Python's negative-index rule — yields a window
whose trimmed text has 50 characters, while a window "shrunk to end right
after that break character" as the claim describes would trim to 562
characters.  So the claim's windowing description fails at this reachable
state. -/
theorem c1_window_shrink_counterexample :
    (nextStart c1Text 0 = 412 ∧ nextStart c1Text 412 = 263 ∧ nextStart c1Text 263 = 114
      ∧ nextStart c1Text 114 = -35 ∧ nextStart c1Text (-35) = -185
      ∧ nextStart c1Text (-185) = -334 ∧ nextStart c1Text (-334) = -484
      ∧ nextStart c1Text (-484) = -634 ∧ nextStart c1Text (-634) = -738
      ∧ nextStart c1Text (-738) = -838)
    ∧ ([0, 412, 263, 114, -35, -185, -334, -484, -634, -738, -838].all
        (fun s => decide (s < (c1Text.length : Int))) = true)
    ∧ chunkWindow c1Text (-838) ≠ specWindow c1Text (-838)
    ∧ (chunkWindow c1Text (-838)).length = 50
    ∧ (specWindow c1Text (-838)).length = 562 := by
  refine ⟨⟨by decide, by decide, by decide, by decide, by decide, by decide, by decide,
    by decide, by decide, by decide⟩, by decide, by decide, by decide, by decide⟩
